import Mathlib

/-!
Verification development for the `iced_video_player` decode/present pipeline
(`src/lib.rs`, `src/video.rs`, `src/video_player.rs`).

The cross-thread core (`Shared` in `src/video.rs`) is embedded as a labeled
transition system.  Every atomic action of the Rust program — one load or
store of an atomic (`paused`, `draw`), one mutex-protected critical section
(the decoder lock in `decode_raw`, the `timestamp` lock, the `frame` lock),
one rendezvous on the zero-capacity `kanal` channel — is one labeled step.
Mutexes are held only inside a single step, so between steps every field is
readable by the other thread; this is exactly the set of interleavings the
Rust synchronization allows.

External collaborators (the `video_rs` decoder, the RGBA converter) are
modeled by their contracts: the decoder is a stream of decode outcomes plus
a cursor, the converter is a black box carried as the frame bytes, per the
spec (section 4.1: decoder handle contract; section 1: the converter is a
black-box function raw frame to RGBA bytes).
-/

/-- RGBA byte buffers (the converted frame contents). -/
abbrev Bytes := List Nat

/-- The `video_rs::Time` timestamp as stored in `Shared.timestamp`:
an optional presentation timestamp (`pts : Option<i64>`) in the stream
time base (`Shared.base` holds the base).  `Shared::next` builds it with
`Time::new(pts, self.base)` (src/video.rs line 113). -/
structure Time where
  pts : Option Int
deriving DecidableEq, Repr

/-- External collaborator contract (`video_rs`): converting a `Time` into a
`std::time::Duration`, here in nanoseconds as an exact rational.  A `Time`
holding no value (`Time::new(None, base)`, as produced at open time in
`Video::new`, src/video.rs line 233) converts to the zero duration; a
valued `pts` scales by the time base. -/
def Time.toDurationNanos (base : ℚ) (t : Time) : ℚ :=
  match t.pts with
  | none => 0
  | some p => (p : ℚ) * base * 10 ^ 9

/-- A decoded-and-converted frame: its RGBA bytes (output of the black-box
converter, `raw.converter(Pixel::RGBA)` in src/video.rs lines 109-111) and
its presentation timestamp `raw.pts()` (src/video.rs line 108). -/
structure Frame where
  bytes : Bytes
  pts : Option Int
deriving DecidableEq, Repr

/-- What the external decoder yields at a given cursor position: a frame,
end of stream, or a fatal decode failure.  In `ffmpeg`/`video_rs` both of
the latter surface as `Err(_)` from `decode_raw()`; the repository code
never inspects which (src/video.rs line 92 matches `Err(_)`). -/
inductive DecodeOutcome
  | frame (f : Frame)
  | eos
  | fatal
deriving DecidableEq

/-- External decoder handle (`video_rs::Decoder`), modeled by its contract
(spec section 4.1): a stream of outcomes with a cursor, plus response
tables for the seek entry points.  `seekCalls` / `frameCalls` /
`startCalls` are ghost logs recording every invocation of `seek(millis)`,
`seek_to_frame(n)` and `seek_to_start()` so that theorems can speak about
which decoder operations were invoked. -/
structure Decoder where
  stream : Nat → DecodeOutcome
  pos : Nat
  seekResp : Int → Option Nat
  frameResp : Int → Option Nat
  seekCalls : List Int
  frameCalls : List Int
  startCalls : Nat

/-- Errors of the decode error path, modeling the variants of `Error` in
src/lib.rs lines 56-70 that the embedded operations can produce:
`Error::Conversion` (from `TryFromIntError`, src/lib.rs line 63) and
`Error::GenericVideo` (from `video_rs::error::Error`, src/lib.rs line 65). -/
inductive Error
  | conversion
  | genericVideo
deriving DecidableEq

/-- `decode_raw()` on the decoder contract: at a frame outcome it returns
the frame and advances the cursor; at end of stream or a fatal error it
fails.  The error value distinguishes end of stream from a fatal decode
error, exactly as `video_rs` errors do; whether the caller inspects it is
up to the caller. -/
inductive DecodeErr
  | eos
  | fatal
deriving DecidableEq

def Decoder.decodeRaw (d : Decoder) : Except DecodeErr (Frame × Decoder) :=
  match d.stream d.pos with
  | .frame f => .ok (f, { d with pos := d.pos + 1 })
  | .eos => .error .eos
  | .fatal => .error .fatal

/-- `decoder.seek(millis)` (video_rs): logged in `seekCalls`; succeeds and
repositions the cursor when the response table has an entry, otherwise
fails (seek error).  Returns success flag and updated decoder. -/
def Decoder.seekMillis (d : Decoder) (ms : Int) : Bool × Decoder :=
  match d.seekResp ms with
  | some p => (true, { d with pos := p, seekCalls := ms :: d.seekCalls })
  | none => (false, { d with seekCalls := ms :: d.seekCalls })

/-- `decoder.seek_to_frame(n)` (video_rs): logged in `frameCalls`. -/
def Decoder.seekToFrame (d : Decoder) (n : Int) : Bool × Decoder :=
  match d.frameResp n with
  | some p => (true, { d with pos := p, frameCalls := n :: d.frameCalls })
  | none => (false, { d with frameCalls := n :: d.frameCalls })

/-- `decoder.seek_to_start()` (video_rs): repositions to the start. -/
def Decoder.seekToStart (d : Decoder) : Decoder :=
  { d with pos := 0, startCalls := d.startCalls + 1 }

/-- Program counter of the decode-loop thread spawned by `Shared::run`
(src/video.rs lines 82-100), refined through the body of `Shared::next`
(lines 102-123).  Each value sits between two atomic actions:

* `check`     : top of the loop, about to load `paused` (line 86);
* `checkDraw` : loaded `paused == false`, about to load `draw` (line 89);
* `preDecode` : loaded `draw == false`, about to lock the decoder and call
                `decode_raw()` (lines 103-107);
* `writeTs b p`   : decode succeeded with bytes `b` and pts `p`, about to
                lock and write `timestamp` (lines 112-116);
* `writeFrame b`  : timestamp written, about to lock and write `frame`
                (lines 117-118);
* `storeDraw` : frame written, about to store `draw = true` (line 120);
* `atRecv`    : loaded `paused == true`, blocked in `next.recv()`
                (line 88). -/
inductive LoopPC
  | check
  | checkDraw
  | preDecode
  | writeTs (b : Bytes) (p : Option Int)
  | writeFrame (b : Bytes)
  | storeDraw
  | atRecv
deriving DecidableEq

/-- Control-thread status with respect to the zero-capacity wake channel
(`kanal::bounded(0)`, src/video.rs line 249).  `Internal::set_paused`
(lines 170-173) stores the flag and then calls the blocking
`send.send(())`; the thread is `sendWaiting` until the decode loop
rendezvouses at its `recv`. -/
inductive CtrlPC
  | idle
  | sendWaiting
deriving DecidableEq

/-- Global state: the fields of `Shared` (src/video.rs lines 71-79) —
`frame`, `timestamp`, `paused`, `draw`, `base` and the decoder — plus the
program counters of the two threads and a ghost history `published`
listing every `(frame bytes, timestamp)` pair that was ever current
together: the initial pair from `Video::new` and, for each run of the
publish sequence in `Shared::next`, the pair completed by the frame write.
A timestamp corresponds to frame bytes exactly when the pair is in this
history. -/
structure State where
  frame : Bytes
  timestamp : Time
  paused : Bool
  draw : Bool
  base : ℚ
  decoder : Decoder
  pc : LoopPC
  ctrl : CtrlPC
  published : List (Bytes × Time)

/-- Labels naming the atomic actions of the system. -/
inductive Label
  | loadPaused
  | loadDraw
  | decode
  | writeTs
  | writeFrame
  | storeDraw
  | wake
  | storePaused (b : Bool)
  | takeReady
  | seekToStart
  | seekTime (secs nanos : Nat)
  | seekFrame (n : Int)
deriving DecidableEq

/-- Rust `Duration::as_millis()` for a duration of `secs` seconds plus
`nanos` nanoseconds: whole milliseconds, sub-millisecond part truncated
(src/video.rs line 131). -/
def durationAsMillis (secs nanos : Nat) : Nat :=
  secs * 1000 + nanos / 1000000

/-- `u128::try_into::<i64>()` as used on the millisecond count in
`Shared::seek` (src/video.rs line 132): succeeds exactly when the value
fits below the signed 64-bit bound, otherwise the `TryFromIntError` is
converted into `Error::Conversion` (src/lib.rs line 63). -/
def tryIntoI64 (n : Nat) : Except Error Int :=
  if n ≤ 2 ^ 63 - 1 then .ok (n : Int) else .error .conversion

/-- `Position` (src/video.rs lines 19-26): a time offset (a Rust
`Duration`, here seconds plus nanoseconds) or an nth-frame index. -/
inductive Position
  | time (secs nanos : Nat)
  | frame (n : Int)
deriving DecidableEq

/-- `Shared::seek` (src/video.rs lines 125-140): locks the decoder; for a
time position converts the duration to whole milliseconds, converts that
count to a signed 64-bit value (failing with `Error::Conversion` before
touching the decoder), then delegates to `decoder.seek`; for a frame
position delegates to `decoder.seek_to_frame`.  It touches no field of
`Shared` besides the decoder. -/
def Shared.seek (s : State) (p : Position) : Except Error Unit × State :=
  match p with
  | .time secs nanos =>
    match tryIntoI64 (durationAsMillis secs nanos) with
    | .error e => (.error e, s)
    | .ok i =>
      let r := s.decoder.seekMillis i
      (if r.1 then .ok () else .error .genericVideo, { s with decoder := r.2 })
  | .frame n =>
    let r := s.decoder.seekToFrame n
    (if r.1 then .ok () else .error .genericVideo, { s with decoder := r.2 })

/-- The labeled step relation: one constructor per atomic action the Rust
program can perform.  Loop-thread actions follow `Shared::run` and
`Shared::next`; control-thread actions follow `Internal::set_paused`,
`Shared::seek` and `Internal::restart_stream`; `takeReady` is the
presentation side consuming the dirty flag with `swap(false)`
(src/video_player.rs line 127). -/
inductive Step : State → Label → State → Prop
  | loadPausedT (s : State) (h : s.pc = .check) (hp : s.paused = true) :
      Step s .loadPaused { s with pc := .atRecv }
  | loadPausedF (s : State) (h : s.pc = .check) (hp : s.paused = false) :
      Step s .loadPaused { s with pc := .checkDraw }
  | loadDrawT (s : State) (h : s.pc = .checkDraw) (hd : s.draw = true) :
      Step s .loadDraw { s with pc := .check }
  | loadDrawF (s : State) (h : s.pc = .checkDraw) (hd : s.draw = false) :
      Step s .loadDraw { s with pc := .preDecode }
  | decodeOk (s : State) (f : Frame) (d : Decoder) (h : s.pc = .preDecode)
      (hd : s.decoder.decodeRaw = .ok (f, d)) :
      Step s .decode { s with pc := .writeTs f.bytes f.pts, decoder := d }
  | decodeErr (s : State) (e : DecodeErr) (h : s.pc = .preDecode)
      (hd : s.decoder.decodeRaw = .error e) :
      Step s .decode { s with pc := .check, paused := true }
  | writeTsS (s : State) (b : Bytes) (p : Option Int) (h : s.pc = .writeTs b p) :
      Step s .writeTs { s with timestamp := ⟨p⟩, pc := .writeFrame b }
  | writeFrameS (s : State) (b : Bytes) (h : s.pc = .writeFrame b) :
      Step s .writeFrame
        { s with frame := b, published := (b, s.timestamp) :: s.published,
                 pc := .storeDraw }
  | storeDrawS (s : State) (h : s.pc = .storeDraw) :
      Step s .storeDraw { s with draw := true, pc := .check }
  | wakeS (s : State) (h : s.pc = .atRecv) (hc : s.ctrl = .sendWaiting) :
      Step s .wake { s with pc := .check, ctrl := .idle }
  | storePausedS (s : State) (b : Bool) (hc : s.ctrl = .idle) :
      Step s (.storePaused b) { s with paused := b, ctrl := .sendWaiting }
  | takeReadyS (s : State) :
      Step s .takeReady { s with draw := false }
  | seekToStartS (s : State) (hc : s.ctrl = .idle) :
      Step s .seekToStart { s with decoder := s.decoder.seekToStart }
  | seekTimeS (s : State) (secs nanos : Nat) (hc : s.ctrl = .idle) :
      Step s (.seekTime secs nanos) (Shared.seek s (.time secs nanos)).2
  | seekFrameS (s : State) (n : Int) (hc : s.ctrl = .idle) :
      Step s (.seekFrame n) (Shared.seek s (.frame n)).2

/-- A step under some label. -/
def StepAny (a b : State) : Prop := ∃ l, Step a l b

/-- A finite execution recording its labels. -/
inductive Steps : State → List Label → State → Prop
  | nil (s : State) : Steps s [] s
  | cons {s t u : State} {l : Label} {ls : List Label}
      (h : Step s l t) (hs : Steps t ls u) : Steps s (l :: ls) u

/-- The effect of one full successful run of the publish sequence in
`Shared::next` (src/video.rs lines 102-123) on the shared fields, given
the decoded-and-converted frame: write `timestamp := Time::new(pts, base)`
(lines 113-115), then `frame := converted bytes` (lines 117-118), then
`draw := true` (line 120).  The ghost history records the co-published
pair. -/
def Shared.publishFrame (s : State) (f : Frame) : State :=
  { s with timestamp := ⟨f.pts⟩, frame := f.bytes, draw := true,
           published := (f.bytes, ⟨f.pts⟩) :: s.published }

/-- The presentation side consuming the dirty flag: atomically read and
clear it, returning the previous value (`upload_frame.swap(false,
Ordering::SeqCst)` in `VideoPlayer::draw`, src/video_player.rs line 127;
the `Shared.draw` flag plays that role for the threaded variant). -/
def Shared.takeReady (s : State) : Bool × State :=
  (s.draw, { s with draw := false })

/-- `Video::position` (src/video.rs lines 315-319): lock `timestamp` and
convert the stored `Time` into a `Duration` — no live clock is involved. -/
def Video.position (s : State) : ℚ :=
  Time.toDurationNanos s.base s.timestamp

/-- The shared state as set up by a successful `Video::new`
(src/video.rs lines 191-276): the first frame is decoded and converted at
open time (lines 226-229) and becomes the initial `frame` contents (line
252), `timestamp` is `Time::new(None, timebase)` (line 233), `paused` is
false (line 255), `draw` starts true (line 244), the decoder cursor sits
after the first frame, and the loop thread starts at the top of its loop.
`f` is the first decoded frame, `stream`/`seekResp`/`frameResp` the
decoder contract, `base` the stream time base. -/
def Video.openShared (f : Frame) (stream : Nat → DecodeOutcome)
    (seekResp frameResp : Int → Option Nat) (base : ℚ) : State :=
  { frame := f.bytes, timestamp := ⟨none⟩, paused := false, draw := true,
    base := base,
    decoder := { stream := stream, pos := 1, seekResp := seekResp,
                 frameResp := frameResp, seekCalls := [], frameCalls := [],
                 startCalls := 0 },
    pc := .check, ctrl := .idle,
    published := [(f.bytes, ⟨none⟩)] }

/-- `Video::duration` (src/video.rs lines 322-328) on a decoder-reported
duration of `n` nanoseconds: convert to seconds (`as_secs_f64`), round to
the nearest whole second half away from zero (`f64::round`), convert back
(`Duration::from_secs_f64`).  The floating-point arithmetic is modeled
exactly over the rationals; `round` on `ℚ` rounds half up, which agrees
with half away from zero on the nonnegative durations at hand. -/
def Video.durationNanos (n : Nat) : ℤ :=
  round ((n : ℚ) / 10 ^ 9) * 10 ^ 9

/-- Loop program counters outside the publish sequence of `Shared::next`:
the loop is at its pause check, its dirty check, about to decode, or
blocked in `recv` — not between the timestamp write and the dirty store. -/
def LoopPC.quiet : LoopPC → Bool
  | .check => true
  | .checkDraw => true
  | .preDecode => true
  | .atRecv => true
  | _ => false

/-- Loop program counters reachable while `paused` stays true: the pause
check and the blocked `recv`. -/
def LoopPC.pausedSpot : LoopPC → Bool
  | .check => true
  | .atRecv => true
  | _ => false

/-- Labels of the repositioning entry points (`Shared::seek` and the
`seek_to_start` in `Internal::restart_stream`). -/
def Label.isSeekOp : Label → Bool
  | .seekToStart => true
  | .seekTime _ _ => true
  | .seekFrame _ => true
  | _ => false

/-- Everything any control-surface query of `Video` can observe of the
mutable playback state: frame bytes, timestamp, paused, dirty flag, both
program counters, the ghost history and the decoder cursor.  (The stream
metadata — width, height, framerate, duration, time base — is immutable
after open and identical across runs.) -/
def controlView (s : State) :
    Bytes × Time × Bool × Bool × LoopPC × CtrlPC × List (Bytes × Time) × Nat :=
  (s.frame, s.timestamp, s.paused, s.draw, s.pc, s.ctrl, s.published,
    s.decoder.pos)

/-- The rendezvous send of `Internal::set_paused` can complete from `s`:
the decode loop is blocked in `recv` and a sender is waiting. -/
def WakeEnabled (s : State) : Prop := ∃ t, Step s .wake t

/-- Concrete first frame for the C1 interleaving. -/
def c1Frame : Frame := ⟨[1, 1, 1, 1], some 7⟩

/-- A one-frame stream for the C1 interleaving. -/
def c1Stream : Nat → DecodeOutcome :=
  fun n => if n = 0 then .frame c1Frame else .eos

/-- Start state for the C1 interleaving: old frame `[0,0,0,0]` with its
timestamp `some 0` published together, loop unpaused at the top, dirty
flag consumed. -/
def c1s0 : State :=
  { frame := [0, 0, 0, 0], timestamp := ⟨some 0⟩, paused := false,
    draw := false, base := 1,
    decoder := ⟨c1Stream, 0, fun _ => none, fun _ => none, [], [], 0⟩,
    pc := .check, ctrl := .idle,
    published := [([0, 0, 0, 0], ⟨some 0⟩)] }

/-- After the loop loads `paused == false`. -/
def c1s1 : State := { c1s0 with pc := .checkDraw }

/-- After the loop loads `draw == false`. -/
def c1s2 : State := { c1s1 with pc := .preDecode }

/-- After `decode_raw()` succeeds with the new frame. -/
def c1s3 : State :=
  { c1s2 with pc := .writeTs c1Frame.bytes c1Frame.pts,
              decoder := { c1s2.decoder with pos := c1s2.decoder.pos + 1 } }

/-- After the timestamp critical section of `Shared::next` — the frame
critical section has not run yet.  Both mutexes are free here, so the
presentation thread can read `timestamp` and `frame` in this state. -/
def c1s4 : State :=
  { c1s3 with timestamp := ⟨c1Frame.pts⟩, pc := .writeFrame c1Frame.bytes }

/-- An endless all-frames stream: `decode_raw` never fails on it. -/
def c2Stream : Nat → DecodeOutcome :=
  fun n => .frame ⟨[n], some (n : Int)⟩

/-- State right after `Video::set_paused(false)` on an already-playing
video stored the flag and entered the blocking `send` on the
zero-capacity channel: the loop is at the top of its loop, unpaused, the
stream keeps yielding frames, and the control thread is `sendWaiting`. -/
def c2s0 : State :=
  { frame := [0], timestamp := ⟨some 0⟩, paused := false, draw := false,
    base := 1,
    decoder := ⟨c2Stream, 0, fun _ => none, fun _ => none, [], [], 0⟩,
    pc := .check, ctrl := .sendWaiting,
    published := [([0], ⟨some 0⟩)] }

/-- Pre-decode state whose stream reports end of stream everywhere. -/
def c3Eos : State :=
  { frame := [5], timestamp := ⟨some 3⟩, paused := false, draw := false,
    base := 1,
    decoder := ⟨fun _ => .eos, 0, fun _ => none, fun _ => none, [], [], 0⟩,
    pc := .preDecode, ctrl := .idle,
    published := [([5], ⟨some 3⟩)] }

/-- The same state except the stream reports a fatal decode error. -/
def c3Fatal : State :=
  { c3Eos with decoder := { c3Eos.decoder with stream := fun _ => .fatal } }

/-- Start state for the C4 witness trace: unpaused loop at the top, dirty
flag consumed, decoder already at end of stream. -/
def c4s0 : State :=
  { frame := [9], timestamp := ⟨some 1⟩, paused := false, draw := false,
    base := 1,
    decoder := ⟨fun _ => .eos, 5, fun _ => none, fun _ => none, [], [], 0⟩,
    pc := .check, ctrl := .idle,
    published := [([9], ⟨some 1⟩)] }

/-- C4 witness trace, after the pause load. -/
def c4s1 : State := { c4s0 with pc := .checkDraw }

/-- C4 witness trace, after the dirty load. -/
def c4s2 : State := { c4s1 with pc := .preDecode }

/-- C4 witness trace, after `decode_raw()` failed with end of stream. -/
def c4s3 : State := { c4s2 with pc := .check, paused := true }

/-- Start state for the C6 witness trace: just after `set_paused(true)`
returned through the rendezvous — flag stored, loop back at its pause
check. -/
def c6s0 : State :=
  { frame := [2], timestamp := ⟨some 4⟩, paused := true, draw := false,
    base := 1,
    decoder := ⟨fun _ => .eos, 3, fun _ => none, fun _ => none, [], [], 0⟩,
    pc := .check, ctrl := .idle,
    published := [([2], ⟨some 4⟩)] }

/-- C6 witness trace, after the loop loads `paused == true` and blocks. -/
def c6s1 : State := { c6s0 with pc := .atRecv }

/-- C6 witness trace, after a redundant `set_paused(true)` stored the
flag and entered the blocking send. -/
def c6s2 : State := { c6s1 with paused := true, ctrl := .sendWaiting }

/-- C6 witness trace, after the rendezvous releases both threads. -/
def c6s3 : State := { c6s2 with pc := .check, ctrl := .idle }

/-- Base state for the C5 witness. -/
def w5s : State :=
  Video.openShared ⟨[0], some 0⟩ (fun _ => .eos) (fun _ => none)
    (fun _ => none) 1

/-- Two frames published in order for the C5 witness. -/
def w5fs : List Frame := [⟨[1], some 1⟩, ⟨[2], some 2⟩]

/-- State for the C8 witness: decoder accepts every seek target. -/
def w8s : State :=
  { frame := [7], timestamp := ⟨some 2⟩, paused := false, draw := true,
    base := 1,
    decoder := ⟨fun _ => .eos, 0, fun _ => some 0, fun _ => some 0, [], [], 0⟩,
    pc := .check, ctrl := .idle,
    published := [([7], ⟨some 2⟩)] }

/-- State for the C9 witness. -/
def w9s : State :=
  { frame := [8], timestamp := ⟨some 6⟩, paused := false, draw := true,
    base := 1,
    decoder := ⟨fun _ => .eos, 2, fun _ => none, fun _ => none, [], [], 0⟩,
    pc := .check, ctrl := .idle,
    published := [([8], ⟨some 6⟩)] }

/-- `Shared::seek` writes no field of `Shared` besides the decoder: the
only mutation in src/video.rs lines 125-140 goes through the decoder
lock. -/
lemma seek_only_decoder (s : State) (p : Position) :
    (Shared.seek s p).2 = { s with decoder := (Shared.seek s p).2.decoder } := by
  cases p with
  | time secs nanos =>
    simp only [Shared.seek]
    cases h : tryIntoI64 (durationAsMillis secs nanos) <;> simp
  | frame n => simp [Shared.seek]

/-- C7.  For every `Position`, `Shared::seek` delegates to the decoder
handle and leaves `frame`, `timestamp`, `draw` (the ready flag) and
`paused` unchanged, whether the seek succeeds or fails: the resulting
state differs from the input state at most in the decoder
(src/video.rs lines 125-140). -/
theorem seek_preserves_playback_state (s : State) (p : Position) :
    (Shared.seek s p).2.frame = s.frame ∧
    (Shared.seek s p).2.timestamp = s.timestamp ∧
    (Shared.seek s p).2.draw = s.draw ∧
    (Shared.seek s p).2.paused = s.paused ∧
    (Shared.seek s p).2 = { s with decoder := (Shared.seek s p).2.decoder } := by
  have h := seek_only_decoder s p
  exact ⟨by rw [h], by rw [h], by rw [h], by rw [h], h⟩

/-- C8.  For every duration (seconds plus nanoseconds), seeking to
`Position::Time` first truncates the duration to whole milliseconds
(`as_millis`, src/video.rs line 131).  Exactly when that count exceeds
the signed 64-bit maximum, the conversion error is returned and the
decoder is not invoked (the state, including the call log, is unchanged);
otherwise exactly that millisecond count is passed to the decoder seek
(src/video.rs lines 130-134). -/
theorem seek_time_millis_conversion (s : State) (secs nanos : Nat) :
    (2 ^ 63 ≤ durationAsMillis secs nanos →
      Shared.seek s (.time secs nanos) = (.error .conversion, s)) ∧
    (durationAsMillis secs nanos < 2 ^ 63 →
      (Shared.seek s (.time secs nanos)).2.decoder.seekCalls
          = (durationAsMillis secs nanos : Int) :: s.decoder.seekCalls ∧
      (Shared.seek s (.time secs nanos)).1 ≠ .error .conversion) := by
  constructor
  · intro h
    have hn : ¬ durationAsMillis secs nanos ≤ 2 ^ 63 - 1 := by omega
    simp only [Shared.seek, tryIntoI64]
    rw [if_neg hn]
  · intro h
    have hy : durationAsMillis secs nanos ≤ 2 ^ 63 - 1 := by omega
    simp only [Shared.seek, tryIntoI64, if_pos hy]
    cases hr : s.decoder.seekResp (durationAsMillis secs nanos : Int) <;>
      simp [Decoder.seekMillis, hr]

/-- C8 witness: with a concrete state, a duration of `2 ^ 63` seconds
overflows the millisecond conversion and returns `Error::Conversion`
without touching the decoder, while a duration of 1 second and 500000
nanoseconds truncates to exactly 1000 milliseconds and passes that to the
decoder seek. -/
theorem seek_time_millis_conversion_witness :
    Shared.seek w8s (.time (2 ^ 63) 0) = (.error .conversion, w8s) ∧
    (Shared.seek w8s (.time 1 500000)).2.decoder.seekCalls
      = (durationAsMillis 1 500000 : Int) :: w8s.decoder.seekCalls :=
  ⟨(seek_time_millis_conversion w8s (2 ^ 63) 0).1 (by norm_num [durationAsMillis]),
   ((seek_time_millis_conversion w8s 1 500000).2 (by norm_num [durationAsMillis])).1⟩

/-- C10.  `Video::duration` returns the decoder-reported duration rounded
to the nearest whole second: the result is always a whole number of
seconds (its fractional-second part is zero) and is within half a second
of the reported duration, so it is generally not the exact stream
duration — for instance a reported 1.6 seconds comes back as 2 seconds
(src/video.rs lines 322-328). -/
theorem duration_whole_seconds :
    (∀ n : Nat, Video.durationNanos n % 10 ^ 9 = 0 ∧
      |(Video.durationNanos n : ℚ) - (n : ℚ)| ≤ 5 * 10 ^ 8) ∧
    Video.durationNanos 1600000000 = 2 * 10 ^ 9 := by
  constructor
  · intro n
    constructor
    · exact Int.mul_emod_left _ _
    · have key : (Video.durationNanos n : ℚ) - (n : ℚ)
          = ((round ((n : ℚ) / 10 ^ 9) : ℚ) - (n : ℚ) / 10 ^ 9) * 10 ^ 9 := by
        simp only [Video.durationNanos]
        push_cast
        ring
      rw [key, abs_mul]
      have hb := abs_sub_round ((n : ℚ) / 10 ^ 9)
      rw [abs_sub_comm] at hb
      have h9 : |(10 ^ 9 : ℚ)| = 10 ^ 9 := by norm_num
      rw [h9]
      calc |(round ((n : ℚ) / 10 ^ 9) : ℚ) - (n : ℚ) / 10 ^ 9| * 10 ^ 9
          ≤ (1 / 2) * 10 ^ 9 := by
            apply mul_le_mul_of_nonneg_right hb
            norm_num
        _ = 5 * 10 ^ 8 := by norm_num
  · simp only [Video.durationNanos]
    norm_num [round_eq]

/-- Folding the publish sequence over a nonempty list of frames leaves the
dirty flag set and the frame and timestamp of the last frame in place. -/
lemma foldl_publishFrame_last (fs : List Frame) :
    ∀ (s : State) (h : fs ≠ []),
      (fs.foldl Shared.publishFrame s).draw = true ∧
      (fs.foldl Shared.publishFrame s).frame = (fs.getLast h).bytes ∧
      (fs.foldl Shared.publishFrame s).timestamp = ⟨(fs.getLast h).pts⟩ := by
  induction fs with
  | nil => intro s h; exact absurd rfl h
  | cons f fs ih =>
    intro s h
    cases fs with
    | nil => exact ⟨rfl, rfl, rfl⟩
    | cons g gs =>
      have h2 : g :: gs ≠ [] := by simp
      rw [List.foldl_cons, List.getLast_cons h2]
      exact ih (Shared.publishFrame s f) h2

/-- C5.  For every nonempty sequence of publishes with no intervening
`take_ready`, a subsequent `take_ready` returns true, an immediately
following `take_ready` returns false, and the frame and timestamp exposed
are those of the most recent publish, never an earlier one
(src/video.rs lines 102-123, src/video_player.rs lines 118-130). -/
theorem single_slot_freshness (s : State) (fs : List Frame) (h : fs ≠ []) :
    (Shared.takeReady (fs.foldl Shared.publishFrame s)).1 = true ∧
    (Shared.takeReady (Shared.takeReady (fs.foldl Shared.publishFrame s)).2).1
        = false ∧
    (fs.foldl Shared.publishFrame s).frame = (fs.getLast h).bytes ∧
    (fs.foldl Shared.publishFrame s).timestamp = ⟨(fs.getLast h).pts⟩ := by
  obtain ⟨hd, hf, ht⟩ := foldl_publishFrame_last fs s h
  exact ⟨hd, rfl, hf, ht⟩

/-- C5 witness: publishing frame `[1]` then frame `[2]` from a freshly
opened state, `take_ready` yields true once, then false, and the exposed
frame and timestamp are those of the second publish. -/
theorem single_slot_freshness_witness :
    (Shared.takeReady (w5fs.foldl Shared.publishFrame w5s)).1 = true ∧
    (Shared.takeReady (Shared.takeReady (w5fs.foldl Shared.publishFrame w5s)).2).1
        = false ∧
    (w5fs.foldl Shared.publishFrame w5s).frame = [2] ∧
    (w5fs.foldl Shared.publishFrame w5s).timestamp = ⟨some 2⟩ := by
  obtain ⟨a, b, c, d⟩ := single_slot_freshness w5s w5fs (by simp [w5fs])
  exact ⟨a, b, by rw [c]; rfl, by rw [d]; rfl⟩

/-- C9.  `Video::position` returns the stored last-published timestamp,
not a live clock: immediately after a successful open it is 0 (the
timestamp is created valueless at open, src/video.rs line 233), and it is
unchanged by every atomic action of the system other than the timestamp
write inside the publish sequence of `Shared::next` — in particular by
`set_paused` and by any passage of time in which nothing is published
(src/video.rs lines 315-319). -/
theorem position_from_published_timestamp :
    (∀ (f : Frame) (stream : Nat → DecodeOutcome)
        (seekResp frameResp : Int → Option Nat) (base : ℚ),
      Video.position (Video.openShared f stream seekResp frameResp base) = 0) ∧
    (∀ (s : State) (l : Label) (t : State), Step s l t → l ≠ .writeTs →
      Video.position t = Video.position s) := by
  constructor
  · intro f stream sr fr base
    rfl
  · intro s l t hstep hl
    cases hstep with
    | writeTsS b p h => exact absurd rfl hl
    | seekTimeS secs nanos hc => rw [seek_only_decoder]; rfl
    | seekFrameS n hc => rw [seek_only_decoder]; rfl
    | _ => rfl

/-- C9 witness: position is 0 right after a concrete open, and a concrete
non-publishing step (the presentation thread consuming the dirty flag)
leaves position unchanged. -/
theorem position_from_published_timestamp_witness :
    Video.position (Video.openShared ⟨[3], some 2⟩ (fun _ => DecodeOutcome.eos)
        (fun _ => none) (fun _ => none) 1) = 0 ∧
    Video.position { w9s with draw := false } = Video.position w9s :=
  ⟨position_from_published_timestamp.1 ⟨[3], some 2⟩ (fun _ => DecodeOutcome.eos)
      (fun _ => none) (fun _ => none) 1,
   position_from_published_timestamp.2 w9s .takeReady _ (Step.takeReadyS w9s)
      (by decide)⟩

/-- C1 counterexample.  `Shared::next` writes `timestamp` and `frame` in
two separate critical sections under two separate mutexes (timestamp
first, src/video.rs lines 112-118).  The following is a valid execution:
the loop passes its pause and dirty checks, decodes the new frame
(`[1,1,1,1]` with pts `some 7`) and completes the timestamp write.  In the
resulting state both mutexes are free, so a concurrent reader reads
`timestamp = some 7` together with the previous frame bytes `[0,0,0,0]` —
a pair that was never current together: it is not in the history of
co-published pairs.  The claim that `frame` and `timestamp` are updated
together and never observed half-updated is therefore false. -/
theorem frame_timestamp_tear_trace :
    Step c1s0 .loadPaused c1s1 ∧ Step c1s1 .loadDraw c1s2 ∧
    Step c1s2 .decode c1s3 ∧ Step c1s3 .writeTs c1s4 ∧
    c1s4.timestamp = ⟨some 7⟩ ∧ c1s4.frame = [0, 0, 0, 0] ∧
    (c1s4.frame, c1s4.timestamp) ∉ c1s4.published :=
  ⟨Step.loadPausedF c1s0 rfl rfl, Step.loadDrawF c1s1 rfl rfl,
   Step.decodeOk c1s2 c1Frame _ rfl rfl,
   Step.writeTsS c1s3 c1Frame.bytes c1Frame.pts rfl,
   rfl, rfl, by decide⟩

/-- Preservation of the pairing invariant: whenever the loop is not
between the timestamp write and the frame write, the current
frame-timestamp pair is one that was published together. -/
lemma pairing_inv_step {a c : State} (h : StepAny a c)
    (ha : (∀ x, a.pc ≠ .writeFrame x) → (a.frame, a.timestamp) ∈ a.published) :
    (∀ x, c.pc ≠ .writeFrame x) → (c.frame, c.timestamp) ∈ c.published := by
  obtain ⟨l, hstep⟩ := h
  cases hstep with
  | loadPausedT h hp => intro _; exact ha (by simp [h])
  | loadPausedF h hp => intro _; exact ha (by simp [h])
  | loadDrawT h hd => intro _; exact ha (by simp [h])
  | loadDrawF h hd => intro _; exact ha (by simp [h])
  | decodeOk f d h hd => intro _; exact ha (by simp [h])
  | decodeErr e h hd => intro _; exact ha (by simp [h])
  | writeTsS b p h => intro hx; exact absurd rfl (hx b)
  | writeFrameS b h => intro _; exact List.mem_cons_self _ _
  | storeDrawS h => intro _; exact ha (by simp [h])
  | wakeS h hc => intro _; exact ha (by simp [h])
  | storePausedS b hc => intro hx; exact ha hx
  | takeReadyS => intro hx; exact ha hx
  | seekToStartS hc => intro hx; exact ha hx
  | seekTimeS secs nanos hc =>
    rw [seek_only_decoder]
    intro hx
    exact ha hx
  | seekFrameS n hc =>
    rw [seek_only_decoder]
    intro hx
    exact ha hx

/-- C1 amended.  From any state satisfying the pairing invariant, in every
reachable state in which the loop is not between the timestamp write and
the frame write of `Shared::next`, the current `(frame, timestamp)` pair
is one that was published together (each field is individually protected
by its own mutex and never torn); inside that window the new timestamp
can be observed with the previous frame bytes, as the counterexample
trace shows. -/
theorem frame_timestamp_pairing_outside_write_window :
    ∀ (s0 s : State),
      ((∀ x, s0.pc ≠ .writeFrame x) → (s0.frame, s0.timestamp) ∈ s0.published) →
      Relation.ReflTransGen StepAny s0 s →
      (∀ x, s.pc ≠ .writeFrame x) → (s.frame, s.timestamp) ∈ s.published := by
  intro s0 s h0 hreach
  induction hreach with
  | refl => exact h0
  | tail hab hbc ih => exact pairing_inv_step hbc ih

/-- C1 witness: the invariant applied to the concrete start state of the
counterexample trace with the empty execution. -/
theorem frame_timestamp_pairing_witness :
    (c1s0.frame, c1s0.timestamp) ∈ c1s0.published :=
  frame_timestamp_pairing_outside_write_window c1s0 c1s0
    (fun _ => by decide) Relation.ReflTransGen.refl
    (fun x h => LoopPC.noConfusion h)

/-- C3 counterexample.  Take two pre-decode states that are identical in
every observable component and differ only in what the external decoder
reports: `c3Fatal` hits a fatal decode error, `c3Eos` hits end of stream.
The loop handles both with the same `Err(_)` arm (src/video.rs lines
92-94): it stores `paused = true` and discards the error value.  The two
resulting states agree on everything any control-surface query can
observe, so no subsequent query can surface the decode error or even
distinguish it from end of stream; nothing is recorded, and no terminal
Stopped state distinct from the paused flag exists.  The claim that the
error is recorded for the next control-surface query is therefore
false. -/
theorem decode_error_indistinguishable_from_eos :
    Step c3Fatal .decode { c3Fatal with pc := .check, paused := true } ∧
    Step c3Eos .decode { c3Eos with pc := .check, paused := true } ∧
    controlView { c3Fatal with pc := .check, paused := true }
      = controlView { c3Eos with pc := .check, paused := true } ∧
    ({ c3Fatal with pc := .check, paused := true } : State).paused = true :=
  ⟨Step.decodeErr c3Fatal .fatal rfl rfl,
   Step.decodeErr c3Eos .eos rfl rfl,
   rfl, rfl⟩

/-- C3 amended.  Whenever `decode_raw()` fails — with a fatal decode error
or with end of stream alike — the decode loop takes exactly one step: it
stores `paused = true` and returns to the top of its loop.  Every other
component of the state is unchanged and the error value is discarded, so
nothing is recorded for a later query; the loop also keeps running (the
paused branch) rather than entering a distinct terminal state
(src/video.rs lines 90-95). -/
theorem decode_error_discarded_pauses_loop :
    ∀ (s : State) (e : DecodeErr), s.pc = .preDecode →
      s.decoder.decodeRaw = .error e →
      (Step s .decode { s with pc := .check, paused := true } ∧
       ∀ t, Step s .decode t → t = { s with pc := .check, paused := true }) := by
  intro s e hpc herr
  refine ⟨Step.decodeErr s e hpc herr, ?_⟩
  intro t hstep
  cases hstep with
  | decodeOk f d h hd => rw [herr] at hd; exact Except.noConfusion hd
  | decodeErr e2 h hd => rfl

/-- C3 witness: the amended behavior at the concrete fatal-error state. -/
theorem decode_error_discarded_witness :
    Step c3Fatal .decode { c3Fatal with pc := .check, paused := true } :=
  (decode_error_discarded_pauses_loop c3Fatal .fatal rfl rfl).1

/-- One-step preservation for the end-of-stream invariant: with the
decoder at end of stream and the loop outside the publish sequence, any
non-seek step keeps the decoder at end of stream, keeps the loop outside
the publish sequence, and is not a frame publication. -/
lemma eos_inv_step {a c : State} {l : Label} (h : Step a l c)
    (hseek : l.isSeekOp = false)
    (ha : a.decoder.stream a.decoder.pos = .eos ∧ a.pc.quiet = true) :
    (c.decoder.stream c.decoder.pos = .eos ∧ c.pc.quiet = true) ∧
      l ≠ .writeFrame := by
  obtain ⟨heos, hq⟩ := ha
  cases h with
  | loadPausedT h hp => exact ⟨⟨heos, rfl⟩, by decide⟩
  | loadPausedF h hp => exact ⟨⟨heos, rfl⟩, by decide⟩
  | loadDrawT h hd => exact ⟨⟨heos, rfl⟩, by decide⟩
  | loadDrawF h hd => exact ⟨⟨heos, rfl⟩, by decide⟩
  | decodeOk f d h hd =>
    rw [Decoder.decodeRaw, heos] at hd
    exact Except.noConfusion hd
  | decodeErr e h hd => exact ⟨⟨heos, rfl⟩, by decide⟩
  | writeTsS b p h => rw [h] at hq; simp [LoopPC.quiet] at hq
  | writeFrameS b h => rw [h] at hq; simp [LoopPC.quiet] at hq
  | storeDrawS h => rw [h] at hq; simp [LoopPC.quiet] at hq
  | wakeS h hc => exact ⟨⟨heos, rfl⟩, by decide⟩
  | storePausedS b hc => exact ⟨⟨heos, hq⟩, fun hcon => Label.noConfusion hcon⟩
  | takeReadyS => exact ⟨⟨heos, hq⟩, by decide⟩
  | seekToStartS hc => simp [Label.isSeekOp] at hseek
  | seekTimeS secs nanos hc => simp [Label.isSeekOp] at hseek
  | seekFrameS n hc => simp [Label.isSeekOp] at hseek

/-- C4.  End of stream is terminal: the decode step that hits end of
stream immediately stores `paused = true` (so `is_paused()` becomes
true), and from any state in which the decoder sits at end of stream with
the loop outside the publish sequence, no execution built from loop,
pause/resume, wake and reader steps — that is, containing no explicit
repositioning seek — ever performs a frame publication.  An explicit
`seek_to_start` plus resume is required before frames can flow again
(src/video.rs lines 85-98, 164-168). -/
theorem eos_terminal_no_publication :
    (∀ (s t : State), s.decoder.stream s.decoder.pos = .eos →
        Step s .decode t → t.paused = true) ∧
    (∀ (s0 s : State) (ls : List Label), Steps s0 ls s →
        s0.decoder.stream s0.decoder.pos = .eos → s0.pc.quiet = true →
        (∀ l ∈ ls, l.isSeekOp = false) → ∀ l ∈ ls, l ≠ .writeFrame) := by
  constructor
  · intro s t heos hstep
    cases hstep with
    | decodeOk f d h hd =>
      rw [Decoder.decodeRaw, heos] at hd
      exact Except.noConfusion hd
    | decodeErr e h hd => rfl
  · intro s0 s ls h
    induction h with
    | nil s => intro _ _ _ l hl; simp at hl
    | cons hstep hrest ih =>
      intro heos hq hs l hl
      have hseek0 := hs _ (List.mem_cons_self _ _)
      have key := eos_inv_step hstep hseek0 ⟨heos, hq⟩
      rcases List.mem_cons.mp hl with rfl | hl2
      · exact key.2
      · exact ih key.1.1 key.1.2 (fun x hx => hs x (List.mem_cons_of_mem _ hx))
          l hl2

/-- C4 witness: from a concrete end-of-stream state, the loop runs its
pause load, dirty load and failing decode; the decode leaves the state
paused and the trace contains no frame publication. -/
theorem eos_terminal_witness :
    c4s3.paused = true ∧ Label.loadDraw ≠ Label.writeFrame :=
  ⟨eos_terminal_no_publication.1 c4s2 c4s3 rfl (Step.decodeErr c4s2 .eos rfl rfl),
   eos_terminal_no_publication.2 c4s0 c4s3 [.loadPaused, .loadDraw, .decode]
     (Steps.cons (Step.loadPausedF c4s0 rfl rfl)
       (Steps.cons (Step.loadDrawF c4s1 rfl rfl)
         (Steps.cons (Step.decodeErr c4s2 .eos rfl rfl) (Steps.nil c4s3))))
     rfl rfl (by decide) Label.loadDraw (by decide)⟩

/-- One-step preservation for the pause invariant: with the flag true and
the loop at its pause check or blocked in `recv`, any step that is not a
`set_paused(false)` store keeps the flag true, keeps the loop there, and
is not a `decode_raw()` call. -/
lemma pause_inv_step {a c : State} {l : Label} (h : Step a l c)
    (hl : l ≠ .storePaused false)
    (ha : a.paused = true ∧ a.pc.pausedSpot = true) :
    (c.paused = true ∧ c.pc.pausedSpot = true) ∧ l ≠ .decode := by
  obtain ⟨hp, hq⟩ := ha
  cases h with
  | loadPausedT h hpt => exact ⟨⟨hp, rfl⟩, by decide⟩
  | loadPausedF h hpf => rw [hp] at hpf; exact Bool.noConfusion hpf
  | loadDrawT h hd => rw [h] at hq; simp [LoopPC.pausedSpot] at hq
  | loadDrawF h hd => rw [h] at hq; simp [LoopPC.pausedSpot] at hq
  | decodeOk f d h hd => rw [h] at hq; simp [LoopPC.pausedSpot] at hq
  | decodeErr e h hd => rw [h] at hq; simp [LoopPC.pausedSpot] at hq
  | writeTsS b p h => rw [h] at hq; simp [LoopPC.pausedSpot] at hq
  | writeFrameS b h => rw [h] at hq; simp [LoopPC.pausedSpot] at hq
  | storeDrawS h => rw [h] at hq; simp [LoopPC.pausedSpot] at hq
  | wakeS h hc => exact ⟨⟨hp, rfl⟩, by decide⟩
  | storePausedS b hc =>
    cases b with
    | false => exact absurd rfl hl
    | true => exact ⟨⟨rfl, hq⟩, fun hcon => Label.noConfusion hcon⟩
  | takeReadyS => exact ⟨⟨hp, hq⟩, by decide⟩
  | seekToStartS hc => exact ⟨⟨hp, hq⟩, by decide⟩
  | seekTimeS secs nanos hc =>
    rw [seek_only_decoder]
    exact ⟨⟨hp, hq⟩, fun hcon => Label.noConfusion hcon⟩
  | seekFrameS n hc =>
    rw [seek_only_decoder]
    exact ⟨⟨hp, hq⟩, fun hcon => Label.noConfusion hcon⟩

/-- Trace form of the pause invariant. -/
lemma pause_inv_steps :
    ∀ {s0 s : State} {ls : List Label}, Steps s0 ls s →
      s0.paused = true → s0.pc.pausedSpot = true →
      (∀ l ∈ ls, l ≠ .storePaused false) → ∀ l ∈ ls, l ≠ .decode := by
  intro s0 s ls h
  induction h with
  | nil s => intro _ _ _ l hl; simp at hl
  | cons hstep hrest ih =>
    intro hp hq hs l hl
    have hl0 := hs _ (List.mem_cons_self _ _)
    have key := pause_inv_step hstep hl0 ⟨hp, hq⟩
    rcases List.mem_cons.mp hl with rfl | hl2
    · exact key.2
    · exact ih key.1.1 key.1.2 (fun x hx => hs x (List.mem_cons_of_mem _ hx))
        l hl2

/-- C6.  Pause quiescence: from any state in which the pause flag is true
and the loop is back at its pause check — exactly the situation after
`set_paused(true)` has returned, since its blocking rendezvous completes
only with the loop at `recv`, which then re-runs the check — every
execution containing no `set_paused(false)` store performs no
`decode_raw()` call at all, not even polling (src/video.rs lines 85-98).
With the rendezvous completed no decode can be in flight, so the bound of
at most one in-flight call in the claim is met with zero further calls. -/
theorem pause_quiescence :
    ∀ (s0 s : State) (ls : List Label), Steps s0 ls s →
      s0.paused = true → s0.pc = .check →
      (∀ l ∈ ls, l ≠ .storePaused false) → ∀ l ∈ ls, l ≠ .decode := by
  intro s0 s ls h hp hpc hs
  exact pause_inv_steps h hp (by rw [hpc]; rfl) hs

/-- C6 witness: a concrete trace from a just-paused state — the loop
loads the flag and blocks, a redundant `set_paused(true)` stores and
sends, the rendezvous completes — contains no decode call. -/
theorem pause_quiescence_witness :
    Label.loadPaused ≠ Label.decode ∧ Label.wake ≠ Label.decode :=
  ⟨pause_quiescence c6s0 c6s3 [.loadPaused, .storePaused true, .wake]
     (Steps.cons (Step.loadPausedT c6s0 rfl rfl)
       (Steps.cons (Step.storePausedS c6s1 true rfl)
         (Steps.cons (Step.wakeS c6s2 rfl rfl) (Steps.nil c6s3))))
     rfl rfl (by decide) Label.loadPaused (by decide),
   pause_quiescence c6s0 c6s3 [.loadPaused, .storePaused true, .wake]
     (Steps.cons (Step.loadPausedT c6s0 rfl rfl)
       (Steps.cons (Step.storePausedS c6s1 true rfl)
         (Steps.cons (Step.wakeS c6s2 rfl rfl) (Steps.nil c6s3))))
     rfl rfl (by decide) Label.wake (by decide)⟩

/-- A successful `decode_raw()` leaves the stream of outcomes unchanged:
only the cursor advances. -/
lemma decodeRaw_ok_stream {d d2 : Decoder} {f : Frame}
    (h : d.decodeRaw = .ok (f, d2)) : d2.stream = d.stream := by
  rw [Decoder.decodeRaw] at h
  cases hs : d.stream d.pos with
  | frame g =>
    rw [hs] at h
    injection h with hpair
    injection hpair with hf hd2
    rw [← hd2]
  | eos => rw [hs] at h; exact Except.noConfusion h
  | fatal => rw [hs] at h; exact Except.noConfusion h

/-- One-step preservation for the blocked-sender invariant: starting from
a `set_paused` store made while the loop is unpaused and the stream keeps
yielding frames, every possible step keeps the sender waiting, the flag
false, the loop away from `recv`, and the stream unchanged. -/
lemma c2_inv_step {a c : State} (h : StepAny a c)
    (ha : a.ctrl = .sendWaiting ∧ a.paused = false ∧ a.pc ≠ .atRecv ∧
          a.decoder.stream = c2Stream) :
    c.ctrl = .sendWaiting ∧ c.paused = false ∧ c.pc ≠ .atRecv ∧
      c.decoder.stream = c2Stream := by
  obtain ⟨hc2, hp, hnr, hstr⟩ := ha
  obtain ⟨l, hstep⟩ := h
  cases hstep with
  | loadPausedT h hpt => rw [hp] at hpt; exact Bool.noConfusion hpt
  | loadPausedF h hpf =>
    exact ⟨hc2, hp, fun hcon => LoopPC.noConfusion hcon, hstr⟩
  | loadDrawT h hd =>
    exact ⟨hc2, hp, fun hcon => LoopPC.noConfusion hcon, hstr⟩
  | loadDrawF h hd =>
    exact ⟨hc2, hp, fun hcon => LoopPC.noConfusion hcon, hstr⟩
  | decodeOk f d h hd =>
    exact ⟨hc2, hp, fun hcon => LoopPC.noConfusion hcon,
      (decodeRaw_ok_stream hd).trans hstr⟩
  | decodeErr e h hd =>
    rw [Decoder.decodeRaw, hstr] at hd
    simp [c2Stream] at hd
  | writeTsS b p h =>
    exact ⟨hc2, hp, fun hcon => LoopPC.noConfusion hcon, hstr⟩
  | writeFrameS b h =>
    exact ⟨hc2, hp, fun hcon => LoopPC.noConfusion hcon, hstr⟩
  | storeDrawS h =>
    exact ⟨hc2, hp, fun hcon => LoopPC.noConfusion hcon, hstr⟩
  | wakeS h hc => exact absurd h hnr
  | storePausedS b hc => rw [hc2] at hc; exact CtrlPC.noConfusion hc
  | takeReadyS => exact ⟨hc2, hp, hnr, hstr⟩
  | seekToStartS hc => rw [hc2] at hc; exact CtrlPC.noConfusion hc
  | seekTimeS secs nanos hc => rw [hc2] at hc; exact CtrlPC.noConfusion hc
  | seekFrameS n hc => rw [hc2] at hc; exact CtrlPC.noConfusion hc

/-- C2 (code defect).  `Internal::set_paused` sends its wake signal with a
blocking `send` on the zero-capacity channel (src/video.rs lines 172,
249): the send can complete only in a rendezvous with the loop blocked in
`recv`.  `c2s0` is the state right after `set_paused(false)` on an
already-playing video stored the flag: in every state reachable from it,
the rendezvous is never enabled — the loop, being unpaused on a stream
that keeps yielding frames, never reaches `recv` — so the caller blocks
forever.  The claimed behavior (store the flag, send one coalescing
signal, return without blocking) does not hold of the code. -/
theorem set_paused_send_never_enabled :
    ∀ s : State, Relation.ReflTransGen StepAny c2s0 s → ¬ WakeEnabled s := by
  have inv : ∀ s, Relation.ReflTransGen StepAny c2s0 s →
      s.ctrl = .sendWaiting ∧ s.paused = false ∧ s.pc ≠ .atRecv ∧
        s.decoder.stream = c2Stream := by
    intro s h
    induction h with
    | refl => exact ⟨rfl, rfl, fun hcon => LoopPC.noConfusion hcon, rfl⟩
    | tail hab hbc ih => exact c2_inv_step hbc ih
  intro s h hw
  obtain ⟨t, hstep⟩ := hw
  cases hstep with
  | wakeS h1 hc => exact (inv s h).2.2.1 h1

/-- C2 witness: in the concrete post-store state itself the send is not
enabled. -/
theorem set_paused_send_never_enabled_witness : ¬ WakeEnabled c2s0 :=
  set_paused_send_never_enabled c2s0 Relation.ReflTransGen.refl
